import Mathlib

/-!
Shallow embedding of `iib/workers/tasks/utils.py` for verification of the
resolution and validation pipeline: image digest resolution, bundle
deprecation filtering, distribution-scope validation, architecture subset
checking, registry credential scoping, the retry wrapper, and the
request-config equality.

External subprocess calls (`skopeo inspect`) are modelled by an oracle
(`SkopeoOracle`) giving, for each pull spec, the data the source reads out of
the inspection results; `hashlib.sha256(...).hexdigest()` is modelled by an
abstract function parameter `sha256hex`.  Python exceptions are modelled by
`PyErr`: `IIBError` (the single structured error kind of the code base) plus
the unstructured `KeyError` / `IndexError` / `ValueError` kinds that builtin
operations can raise.
-/

/-- Python exception kinds observable in the translated code. `iib` carries the
message of an `IIBError`; the other constructors model builtin exceptions
(`dict[...]`/`list[...]` lookups, `list.index`). -/
inductive PyErr where
  | iib (msg : String)
  | keyError
  | indexError
  | valueError
deriving DecidableEq

/-- One entry of the `manifests` array of a manifest-list raw inspection:
its `digest` field and its `platform.architecture` field. -/
structure ManifestEntry where
  digest : String
  architecture : String
deriving DecidableEq

/-- Result of `skopeo inspect --raw docker://<spec>`: `out` is the raw stdout
text; `mediaType`, `schemaVersion` and `manifests` abstract
`json.loads(out).get('mediaType')`, `json.loads(out).get('schemaVersion')` and
`json.loads(out)['manifests']` (`none` when the key is missing). -/
structure RawInspect where
  out : String
  mediaType : Option String
  schemaVersion : Option Int
  manifests : Option (List ManifestEntry)
deriving DecidableEq

/-- Oracle for the external `skopeo inspect` calls, keyed by pull spec (the
part after `docker://`).  `raw` models `skopeo inspect --raw`; `fullDigest`
models the `Digest` field of a plain `skopeo inspect`; `labels` models
`config.Labels` of `skopeo inspect --config`; `architecture` models the
`architecture` field of `skopeo inspect --config`.  The oracle models calls
that succeed at the subprocess level (inspection failures are retried and
surface as `IIBError`, settled separately by the retry-wrapper claims). -/
structure SkopeoOracle where
  raw : String → RawInspect
  fullDigest : String → String
  labels : String → List (String × String)
  architecture : String → String

/-- Media type string of a v2 manifest list. -/
def manifestListV2 : String := "application/vnd.docker.distribution.manifest.list.v2+json"

/-- Media type string of a v2 schema-2 image manifest. -/
def manifestV2 : String := "application/vnd.docker.distribution.manifest.v2+json"

/-- Python `str(x)` for an optional string (as used in f-string interpolation
of `dict.get` results): `None` prints as `"None"`. -/
def pyStrOptS : Option String → String
  | none => "None"
  | some s => s

/-- Python `str(x)` for an optional integer: `None` prints as `"None"`. -/
def pyStrOptI : Option Int → String
  | none => "None"
  | some i => toString i

/-- Everything of `s` strictly before the last occurrence of `c`; the whole
list when `c` does not occur.  This is Python `s.rsplit(c, 1)[0]`. -/
def rsplitBeforeLast (c : Char) (s : List Char) : List Char :=
  match s.reverse.dropWhile (fun x => x ≠ c) with
  | [] => s
  | _ :: rest => rest.reverse

/-- Translation of `_get_container_image_name` (utils.py:257): the part of the
pull spec before `@` when `@` occurs (`pull_spec.split('@', 1)[0]`), else the
part before the last `:` (`pull_spec.rsplit(':', 1)[0]`). -/
def _get_container_image_name (pull_spec : String) : String :=
  if '@' ∈ pull_spec.data then
    String.mk (pull_spec.data.takeWhile (fun c => c ≠ '@'))
  else
    String.mk (rsplitBeforeLast ':' pull_spec.data)

/-- Translation of `get_resolved_image` (utils.py:270).  `skopeo_output` is the
raw inspection stdout (`return_json=False`); when its parsed `schemaVersion`
is `2` the digest is `sha256:` + the SHA-256 hex digest of those bytes,
otherwise the `Digest` field of a full (non-raw) inspection is used. -/
def get_resolved_image (sha256hex : String → String) (o : SkopeoOracle)
    (pull_spec : String) : String :=
  let name := _get_container_image_name pull_spec
  let skopeo_output := (o.raw pull_spec).out
  let digest :=
    if (o.raw pull_spec).schemaVersion = some 2 then
      "sha256:" ++ sha256hex skopeo_output
    else
      o.fullDigest pull_spec
  name ++ "@" ++ digest

/-- The error message of the unsupported-manifest branch of
`get_resolved_bundles` (utils.py:247), with `mt`/`sv` the values of
`skopeo_raw.get("mediaType")` / `skopeo_raw.get("schemaVersion")`. -/
def unsupportedManifestMsg (pull_spec : String) (mt : Option String)
    (sv : Option Int) : String :=
  "The pull specification of " ++ pull_spec ++ " is neither a v2 manifest list" ++
    " nor a v2s2 manifest. Type " ++ pyStrOptS mt ++ " and schema version " ++
    pyStrOptI sv ++ " is not supported by IIB."

/-- Per-bundle body of the loop of `get_resolved_bundles` (utils.py:229-252).
The initial falsy-`mediaType` check is the `require_media_type=True` check
performed inside `skopeo_inspect` (utils.py:481): it raises
`IIBError('mediaType not found')`.  A manifest list resolves to the digest of
the first entry of `manifests` (`skopeo_raw['manifests'][0]['digest']`: a
missing key raises `KeyError`, an empty array raises `IndexError`); a v2
schema-2 manifest delegates to `get_resolved_image`; anything else raises the
unsupported-manifest `IIBError`. -/
def resolve_bundle_digest (sha256hex : String → String) (o : SkopeoOracle)
    (bundle_pull_spec : String) : Except PyErr String :=
  let r := o.raw bundle_pull_spec
  if r.mediaType = none ∨ r.mediaType = some "" then
    .error (.iib "mediaType not found")
  else if r.mediaType = some manifestListV2 then
    match r.manifests with
    | none => .error .keyError
    | some [] => .error .indexError
    | some (m :: _) =>
      .ok (_get_container_image_name bundle_pull_spec ++ "@" ++ m.digest)
  else if r.mediaType = some manifestV2 ∧ r.schemaVersion = some 2 then
    .ok (get_resolved_image sha256hex o bundle_pull_spec)
  else
    .error (.iib (unsupportedManifestMsg bundle_pull_spec r.mediaType r.schemaVersion))

/-- Loop of `get_resolved_bundles`: the Python code accumulates resolved pull
specs into a set and returns `list(set)`; the set is modelled as a list with
membership-guarded insertion. -/
def get_resolved_bundles_loop (sha256hex : String → String) (o : SkopeoOracle) :
    List String → List String → Except PyErr (List String)
  | [], acc => .ok acc
  | b :: rest, acc =>
    match resolve_bundle_digest sha256hex o b with
    | .error e => .error e
    | .ok r =>
      get_resolved_bundles_loop sha256hex o rest (if r ∈ acc then acc else acc ++ [r])

/-- Translation of `get_resolved_bundles` (utils.py:214). -/
def get_resolved_bundles (sha256hex : String → String) (o : SkopeoOracle)
    (bundles : List String) : Except PyErr (List String) :=
  get_resolved_bundles_loop sha256hex o bundles []

/-- Translation of `get_bundles_from_deprecation_list` (utils.py:193): resolve
the deprecation list, then keep (in order) the input bundles whose raw pull
spec occurs in the resolved list. -/
def get_bundles_from_deprecation_list (sha256hex : String → String)
    (o : SkopeoOracle) (bundles deprecation_list : List String) :
    Except PyErr (List String) :=
  match get_resolved_bundles sha256hex o deprecation_list with
  | .error e => .error e
  | .ok resolved_deprecation_list =>
    .ok (bundles.filter (fun bundle => decide (bundle ∈ resolved_deprecation_list)))

/-- Content of a Docker `config.json` document, reduced to the part the code
reads and writes: the `auths` mapping from registry host to the `auth` value.
Other keys of the template document are untouched by the code and irrelevant
to the claims. -/
structure DockerConfigJson where
  auths : List (String × String)
deriving DecidableEq

/-- What sits at the Docker config path `~/.docker/config.json`: a plain file
with some content, or a symlink to the configured template
(`iib_docker_config_template`), the only symlink the code ever creates. -/
inductive DockerEntry where
  | file (content : DockerConfigJson)
  | symlinkToTemplate
deriving DecidableEq

/-- The filesystem state the credential-scoping code touches: the entry at the
Docker config path (`none` when absent) and the content of the template file
(`none` when the template does not exist). -/
structure FS where
  dockerConfig : Option DockerEntry
  template : Option DockerConfigJson
deriving DecidableEq

/-- Content read at the Docker config path, following the symlink: `none` when
the path is absent or the symlink dangles. -/
def readDockerConfig (fs : FS) : Option DockerConfigJson :=
  match fs.dockerConfig with
  | none => none
  | some (.file c) => some c
  | some .symlinkToTemplate => fs.template

/-- Translation of `reset_docker_config` (utils.py:349): remove the config
path (ignoring absence), then symlink it to the template if the template
exists. -/
def reset_docker_config (fs : FS) : FS :=
  let removed : FS := ⟨none, fs.template⟩
  if fs.template.isSome then
    ⟨some DockerEntry.symlinkToTemplate, fs.template⟩
  else
    removed

/-- Python `dict.update` on the `auths` mapping: keys of `upd` override `base`
in place, keys new to `base` are appended. -/
def updateAuths (base upd : List (String × String)) : List (String × String) :=
  base.map (fun p =>
    match upd.lookup p.1 with
    | some v => (p.1, v)
    | none => p) ++
    upd.filter (fun q => decide (base.lookup q.1 = none))

/-- The setup half of `set_registry_auths` (utils.py:420-443), i.e. the state
in which the scoped body runs: the config path is removed, the template is
loaded when it exists (else `{}`), the caller's auths are merged in, and the
result is written to the config path as a plain file. -/
def set_registry_auths_enter (registry_auths : DockerConfigJson) (fs : FS) : FS :=
  let docker_config : DockerConfigJson :=
    match fs.template with
    | some t => t
    | none => ⟨[]⟩
  ⟨some (DockerEntry.file ⟨updateAuths docker_config.auths registry_auths.auths⟩),
    fs.template⟩

/-- The state after the `set_registry_auths` context manager exits, on any exit
path of the scoped body (the `finally` always runs `reset_docker_config`,
which overwrites the config path irrespective of what the body left there).
A falsy `registry_auths` (Python `if not registry_auths`, modelled as `none`)
makes the whole scope a no-op. -/
def set_registry_auths_exit (registry_auths : Option DockerConfigJson) (fs : FS) : FS :=
  match registry_auths with
  | none => fs
  | some j => reset_docker_config (set_registry_auths_enter j fs)

/-- The state after the `set_registry_token` context manager (utils.py:367)
exits, parameterized by the registry parser (`ImageName.parse(...).registry`)
and base64 encoder, both external to this module.  A falsy token or image
makes the scope a no-op; otherwise it is `set_registry_auths` on the singleton
auths mapping. -/
def set_registry_token_exit (registryOf : String → String) (b64encode : String → String)
    (token : Option String) (container_image : Option String) (fs : FS) : FS :=
  match token with
  | none => fs
  | some t =>
    if t = "" then fs
    else
      match container_image with
      | none => fs
      | some img =>
        if img = "" then fs
        else set_registry_auths_exit (some ⟨[(registryOf img, b64encode t)]⟩) fs

/-- The scope list of `_validate_distribution_scope` (utils.py:776). -/
def scopes : List String := ["dev", "stage", "prod"]

/-- Python `list.index`: position of the first occurrence, `none` when absent
(where Python raises `ValueError`). -/
def pyListIndex (l : List String) (x : String) : Option Nat :=
  match l with
  | [] => none
  | y :: ys => if y = x then some 0 else (pyListIndex ys x).map (fun n => n + 1)

/-- Translation of `_validate_distribution_scope` (utils.py:761).  A falsy
requested scope (`None` or `""`) returns the resolved scope unchanged;
otherwise `scopes.index` is applied to the requested scope first, then the
resolved scope (`ValueError` when either is not in the list), and the request
fails with an `IIBError` when it ranks strictly higher. -/
def _validate_distribution_scope (resolved_distribution_scope : String)
    (distribution_scope : Option String) : Except PyErr String :=
  match distribution_scope with
  | none => .ok resolved_distribution_scope
  | some ds =>
    if ds = "" then .ok resolved_distribution_scope
    else
      match pyListIndex scopes ds with
      | none => .error .valueError
      | some i =>
        match pyListIndex scopes resolved_distribution_scope with
        | none => .error .valueError
        | some j =>
          if j < i then
            .error (.iib ("Cannot set \"distribution_scope\" to " ++ ds ++
              " because from index is already set to " ++ resolved_distribution_scope))
          else
            .ok ds

/-- The rank of a scope under the order dev < stage < prod, as the claims
state it (the source realizes it as the position in `scopes`). -/
def scopeRank : String → Nat
  | "stage" => 1
  | "prod" => 2
  | _ => 0

/-- Python `sorted` on a list of strings (lexicographic code-point order). -/
def pySortedStr (l : List String) : List String :=
  List.insertionSort (fun a b => a ≤ b) l

/-- The failure message of the binary-image architecture check
(utils.py:841-845), given the already-sorted missing architectures. -/
def archMissingMsg (missing : List String) : String :=
  "The binary image is not available for the following arches: " ++
    String.intercalate ", " missing

/-- Translation of the binary-image architecture subset check of
`prepare_request_for_build` (utils.py:840-845).  The Python sets are modelled
as lists; `issubset` is elementwise membership and the set difference
`arches - binary_image_arches` is the membership filter. -/
def binary_image_arch_check (arches binary_image_arches : List String) :
    Except PyErr Unit :=
  if ¬ ∀ a ∈ arches, a ∈ binary_image_arches then
    .error (.iib (archMissingMsg (pySortedStr
      (arches.filter (fun a => decide (a ∉ binary_image_arches))))))
  else
    .ok ()

/-- Python set `add` on a list-modelled set: append when not yet present. -/
def pySetAdd (s : List String) (x : String) : List String :=
  if x ∈ s then s else s ++ [x]

/-- Translation of `get_image_arches` (utils.py:643): a manifest list yields
the set of the entries' platform architectures; a v2 manifest yields the
singleton of the config inspection's `architecture` field; anything else
raises an `IIBError`. -/
def get_image_arches (o : SkopeoOracle) (pull_spec : String) :
    Except PyErr (List String) :=
  let r := o.raw pull_spec
  if r.mediaType = some manifestListV2 then
    match r.manifests with
    | none => .error .keyError
    | some ms => .ok (ms.foldl (fun s m => pySetAdd s m.architecture) [])
  else if r.mediaType = some manifestV2 then
    .ok (pySetAdd [] (o.architecture pull_spec))
  else
    .error (.iib ("The pull specification of " ++ pull_spec ++
      " is neither a v2 manifest list nor a v2 manifest"))

/-- Translation of `get_image_labels` (utils.py:296): the `config.Labels`
mapping of a config inspection. -/
def get_image_labels (o : SkopeoOracle) (pull_spec : String) : List (String × String) :=
  o.labels pull_spec

/-- Translation of `get_image_label` (utils.py:729): `labels.get(label)`. -/
def get_image_label (o : SkopeoOracle) (pull_spec : String) (label : String) :
    Option String :=
  (get_image_labels o pull_spec).lookup label

/-- Python `x or d` for an optional string `x` (falsy: `None` and `""`). -/
def pyOrStr (x : Option String) (d : String) : String :=
  match x with
  | none => d
  | some s => if s = "" then d else s

/-- Observable side effects of `get_index_image_info`: entering the
`set_registry_token` credential scope, and the individual `skopeo inspect`
invocations (raw, full, config). -/
inductive Effect where
  | registryTokenScope (token : Option String) (image : String)
  | inspectRaw (spec : String)
  | inspectFull (spec : String)
  | inspectConfig (spec : String)
deriving DecidableEq

/-- Inspection calls performed by `get_resolved_image`: the raw inspection,
plus a full inspection when the schema version is not 2. -/
def get_resolved_image_effects (o : SkopeoOracle) (pull_spec : String) : List Effect :=
  Effect.inspectRaw pull_spec ::
    (if (o.raw pull_spec).schemaVersion = some 2 then [] else [Effect.inspectFull pull_spec])

/-- Inspection calls performed by `get_image_arches` on its success paths: the
raw inspection, plus a config inspection in the single-manifest branch. -/
def get_image_arches_effects (o : SkopeoOracle) (pull_spec : String) : List Effect :=
  Effect.inspectRaw pull_spec ::
    (if (o.raw pull_spec).mediaType = some manifestV2 then [Effect.inspectConfig pull_spec]
      else [])

/-- The record returned by `get_index_image_info` (utils.py:681-686). -/
structure IndexImageInfo where
  resolved_from_index : Option String
  ocp_version : String
  arches : List String
  resolved_distribution_scope : String
deriving DecidableEq

/-- Translation of `get_index_image_info` (utils.py:669), paired with the
trace of credential-scoping and inspection effects it performs.  A falsy
`from_index` returns the defaults immediately with an empty effect trace;
otherwise the index is resolved, its arches and its two delivery labels are
read under the `set_registry_token` scope. -/
def get_index_image_info (sha256hex : String → String) (o : SkopeoOracle)
    (overwrite_from_index_token : Option String) (from_index : Option String)
    (default_ocp_version : String) : Except PyErr (IndexImageInfo × List Effect) :=
  match from_index with
  | none => .ok (⟨none, default_ocp_version, [], "prod"⟩, [])
  | some fi =>
    if fi = "" then .ok (⟨none, default_ocp_version, [], "prod"⟩, [])
    else
      let from_index_resolved := get_resolved_image sha256hex o fi
      match get_image_arches o from_index_resolved with
      | .error e => .error e
      | .ok arches =>
        .ok (⟨some from_index_resolved,
              pyOrStr (get_image_label o from_index_resolved
                "com.redhat.index.delivery.version") "v4.5",
              arches,
              pyOrStr (get_image_label o from_index_resolved
                "com.redhat.index.delivery.distribution_scope") "prod"⟩,
          Effect.registryTokenScope overwrite_from_index_token fi ::
            (get_resolved_image_effects o fi ++
              get_image_arches_effects o from_index_resolved ++
              [Effect.inspectConfig from_index_resolved,
                Effect.inspectConfig from_index_resolved]))

/-- One invocation of the function wrapped by `retry`: it returns a value or
raises; a raised exception either belongs to the `wait_on` class
(`matchesWaitOn = true`) or not, and carries a tag identifying it. -/
inductive Outcome (α : Type) where
  | ok (v : α)
  | exc (matchesWaitOn : Bool) (tag : Nat)

/-- Translation of the `while True` loop of the `retry` decorator
(utils.py:324-342).  `f k` is the outcome of the `k`-th invocation of the
wrapped function (counting from 0), `remaining` is `remaining_attempts`.  The
source decrements and then re-raises when `remaining_attempts <= 0`, i.e.
when the pre-decrement value is at most 1.  The result pairs the returned
value or propagated exception (matching flag and tag) with the total number of
invocations made. -/
def retryLoop {α : Type} (f : Nat → Outcome α) (remaining k : Nat) :
    (Except (Bool × Nat) α) × Nat :=
  match f k with
  | .ok v => (Except.ok v, k + 1)
  | .exc false t => (Except.error (false, t), k + 1)
  | .exc true t =>
    if remaining ≤ 1 then (Except.error (true, t), k + 1)
    else retryLoop f (remaining - 1) (k + 1)
termination_by remaining

/-- The `retry(attempts=...)` wrapper applied to an invocation sequence:
`remaining_attempts` starts at `attempts`. -/
def retry {α : Type} (attempts : Nat) (f : Nat → Outcome α) :
    (Except (Bool × Nat) α) × Nat :=
  retryLoop f attempts 0

/-- The concrete variant type of a request config (`RequestConfigAddRm` or
`RequestConfigMerge`); `__eq__` compares these via `type(self) == type(other)`. -/
inductive RequestVariant where
  | addRm
  | merge
deriving DecidableEq

/-- A Python attribute value stored in a request-config slot. -/
inductive PyValue where
  | noneV
  | str (s : String)
  | strList (l : List String)
deriving DecidableEq

/-- A request config: its concrete variant type and the values of its
`__slots__` attributes in declaration order. -/
structure PyRequestConfig where
  variant : RequestVariant
  slots : List PyValue
deriving DecidableEq

/-- Translation of `RequestConfig.__eq__` (utils.py:84-89).  Both list
comprehensions in the source read `getattr(self, x)`, so the field comparison
is `a.slots = a.slots`, never consulting `other`'s slots. -/
def requestConfigEq (a b : PyRequestConfig) : Bool :=
  if a.variant = b.variant ∧ a.slots = a.slots then true else false

/-- A fixed abstract SHA-256 hex function for concrete witnesses. -/
def shaFn : String → String := fun _ => "abc0123"

/-- A concrete oracle whose raw inspections all report a v2 manifest list with
a single amd64 entry of digest `sha256:aaa`; used by concrete witnesses. -/
def oracleA : SkopeoOracle :=
  ⟨fun _ => ⟨"RAWBYTES", some manifestListV2, some 2, some [⟨"sha256:aaa", "amd64"⟩]⟩,
    fun _ => "sha256:fff", fun _ => [], fun _ => "amd64"⟩

/-- A concrete oracle whose raw inspections all report a v2 schema-2 manifest;
used by concrete witnesses. -/
def oracleB : SkopeoOracle :=
  ⟨fun _ => ⟨"RAWBYTES", some manifestV2, some 2, none⟩,
    fun _ => "sha256:fff", fun _ => [], fun _ => "amd64"⟩

/-- A concrete invocation sequence for the retry-wrapper witness: the first
invocation raises a matching exception (tag 7), every later one succeeds with
value 42. -/
def retryWitnessF : Nat → Outcome Nat :=
  fun k => if k = 0 then Outcome.exc true 7 else Outcome.ok 42

instance {ε α : Type} [DecidableEq ε] [DecidableEq α] : DecidableEq (Except ε α) :=
  fun a b =>
    match a, b with
    | .ok x, .ok y =>
      if h : x = y then isTrue (by rw [h]) else
        isFalse (by intro hh; exact h (Except.ok.inj hh))
    | .error x, .error y =>
      if h : x = y then isTrue (by rw [h]) else
        isFalse (by intro hh; exact h (Except.error.inj hh))
    | .ok _, .error _ => isFalse (fun hh => Except.noConfusion hh)
    | .error _, .ok _ => isFalse (fun hh => Except.noConfusion hh)

/-- C4: for a pull spec whose raw inspection output parses with
`schemaVersion` 2, `get_resolved_image` returns the image name portion of the
pull spec, followed by `@sha256:` and the SHA-256 hex digest of the raw
output bytes. -/
theorem get_resolved_image_schema2_spec (sha256hex : String → String)
    (o : SkopeoOracle) (pull_spec : String)
    (h : (o.raw pull_spec).schemaVersion = some 2) :
    get_resolved_image sha256hex o pull_spec =
      _get_container_image_name pull_spec ++ "@sha256:" ++
        sha256hex (o.raw pull_spec).out := by
  simp only [get_resolved_image]
  rw [if_pos h, ← String.append_assoc]
  congr 1
  rw [String.append_assoc]
  rfl

/-- Witness for `get_resolved_image_schema2_spec` at a concrete oracle and
pull spec. -/
theorem get_resolved_image_schema2_spec_witness :
    (oracleB.raw "reg/img:tag").schemaVersion = some 2 ∧
      get_resolved_image shaFn oracleB "reg/img:tag" =
        _get_container_image_name "reg/img:tag" ++ "@sha256:" ++
          shaFn (oracleB.raw "reg/img:tag").out ∧
      get_resolved_image shaFn oracleB "reg/img:tag" = "reg/img@sha256:abc0123" :=
  ⟨rfl, get_resolved_image_schema2_spec shaFn oracleB "reg/img:tag" rfl, rfl⟩

/-- C2: per-bundle resolution of `get_resolved_bundles`.  A v2 manifest list
resolves to the name portion of the pull spec joined by `@` to the digest of
the first `manifests` entry; a v2 schema-2 manifest resolves to
`get_resolved_image` of the pull spec; any other reported media type / schema
version combination fails with the `IIBError` naming the offending media type
and schema version. -/
theorem resolve_bundle_digest_spec (sha256hex : String → String) (o : SkopeoOracle)
    (bundle_pull_spec : String) :
    (∀ m rest, (o.raw bundle_pull_spec).mediaType = some manifestListV2 →
        (o.raw bundle_pull_spec).manifests = some (m :: rest) →
        resolve_bundle_digest sha256hex o bundle_pull_spec =
          .ok (_get_container_image_name bundle_pull_spec ++ "@" ++ m.digest)) ∧
    ((o.raw bundle_pull_spec).mediaType = some manifestV2 →
        (o.raw bundle_pull_spec).schemaVersion = some 2 →
        resolve_bundle_digest sha256hex o bundle_pull_spec =
          .ok (get_resolved_image sha256hex o bundle_pull_spec)) ∧
    (∀ mt, (o.raw bundle_pull_spec).mediaType = some mt → mt ≠ "" →
        mt ≠ manifestListV2 →
        ¬(mt = manifestV2 ∧ (o.raw bundle_pull_spec).schemaVersion = some 2) →
        resolve_bundle_digest sha256hex o bundle_pull_spec =
          .error (.iib (unsupportedManifestMsg bundle_pull_spec (some mt)
            (o.raw bundle_pull_spec).schemaVersion))) := by
  refine ⟨?_, ?_, ?_⟩
  · intro m rest h1 h2
    simp only [resolve_bundle_digest]
    rw [h1, h2]
    simp [manifestListV2]
  · intro h1 h2
    simp only [resolve_bundle_digest]
    rw [h1, h2]
    simp [manifestListV2, manifestV2]
  · intro mt h1 hne hlist hv2
    simp only [resolve_bundle_digest]
    rw [h1]
    simp [hne, hlist, hv2]

/-- Witness for `resolve_bundle_digest_spec` (manifest-list branch) at a
concrete oracle and pull spec. -/
theorem resolve_bundle_digest_spec_witness :
    (oracleA.raw "reg/b:1").mediaType = some manifestListV2 ∧
      (oracleA.raw "reg/b:1").manifests = some [⟨"sha256:aaa", "amd64"⟩] ∧
      resolve_bundle_digest shaFn oracleA "reg/b:1" = .ok "reg/b@sha256:aaa" :=
  ⟨rfl, rfl,
    ((resolve_bundle_digest_spec shaFn oracleA "reg/b:1").1
      ⟨"sha256:aaa", "amd64"⟩ [] rfl rfl).trans rfl⟩

theorem at_mem_append (a b : String) : '@' ∈ (a ++ "@" ++ b).data := by
  rw [String.data_append, String.data_append]
  simp

theorem get_resolved_image_has_at (sha256hex : String → String) (o : SkopeoOracle)
    (pull_spec : String) : '@' ∈ (get_resolved_image sha256hex o pull_spec).data := by
  simp only [get_resolved_image]
  exact at_mem_append _ _

theorem resolve_bundle_digest_ok_has_at (sha256hex : String → String)
    (o : SkopeoOracle) (b r : String)
    (h : resolve_bundle_digest sha256hex o b = .ok r) : '@' ∈ r.data := by
  simp only [resolve_bundle_digest] at h
  by_cases h1 : (o.raw b).mediaType = none ∨ (o.raw b).mediaType = some ""
  · rw [if_pos h1] at h; exact Except.noConfusion h
  rw [if_neg h1] at h
  by_cases h2 : (o.raw b).mediaType = some manifestListV2
  · rw [if_pos h2] at h
    cases hm : (o.raw b).manifests with
    | none => rw [hm] at h; exact Except.noConfusion h
    | some l =>
      cases l with
      | nil => rw [hm] at h; exact Except.noConfusion h
      | cons m rest =>
        rw [hm] at h
        injection h with h3
        subst h3
        exact at_mem_append _ _
  rw [if_neg h2] at h
  by_cases h3 : (o.raw b).mediaType = some manifestV2 ∧ (o.raw b).schemaVersion = some 2
  · rw [if_pos h3] at h
    injection h with h4
    subst h4
    exact get_resolved_image_has_at _ _ _
  · rw [if_neg h3] at h
    exact Except.noConfusion h

theorem get_resolved_bundles_loop_has_at (sha256hex : String → String)
    (o : SkopeoOracle) :
    ∀ (bs acc R : List String), (∀ y ∈ acc, '@' ∈ y.data) →
      get_resolved_bundles_loop sha256hex o bs acc = .ok R →
      ∀ x ∈ R, '@' ∈ x.data := by
  intro bs
  induction bs with
  | nil =>
    intro acc R hacc h x hx
    simp only [get_resolved_bundles_loop] at h
    injection h with h1
    subst h1
    exact hacc x hx
  | cons b rest ih =>
    intro acc R hacc h x hx
    simp only [get_resolved_bundles_loop] at h
    cases hr : resolve_bundle_digest sha256hex o b with
    | error e => rw [hr] at h; exact Except.noConfusion h
    | ok r =>
      rw [hr] at h
      refine ih _ _ ?_ h x hx
      intro y hy
      by_cases hmem : r ∈ acc
      · rw [if_pos hmem] at hy; exact hacc y hy
      · rw [if_neg hmem] at hy
        rcases List.mem_append.mp hy with h1 | h1
        · exact hacc y h1
        · rcases List.mem_singleton.mp h1 with rfl
          exact resolve_bundle_digest_ok_has_at sha256hex o b y hr

theorem get_resolved_bundles_mem_has_at (sha256hex : String → String)
    (o : SkopeoOracle) (l R : List String)
    (h : get_resolved_bundles sha256hex o l = .ok R) :
    ∀ x ∈ R, '@' ∈ x.data :=
  get_resolved_bundles_loop_has_at sha256hex o l [] R (by simp) h

/-- C3: when the deprecation list resolves to `R`,
`get_bundles_from_deprecation_list` returns exactly the input bundles, in
their original order, whose raw un-resolved pull spec is a member of `R`; and
an input bundle written as an unresolved tag reference (no `@` in its pull
spec) is never in the returned list, regardless of what it resolves to, since
every member of `R` contains `@`. -/
theorem get_bundles_from_deprecation_list_spec (sha256hex : String → String)
    (o : SkopeoOracle) (bundles deprecation_list R : List String)
    (h : get_resolved_bundles sha256hex o deprecation_list = .ok R) :
    get_bundles_from_deprecation_list sha256hex o bundles deprecation_list =
      .ok (bundles.filter (fun b => decide (b ∈ R))) ∧
    ∀ b, '@' ∉ b.data → b ∉ bundles.filter (fun b => decide (b ∈ R)) := by
  constructor
  · simp only [get_bundles_from_deprecation_list]
    rw [h]
  · intro b hb hmem
    have hbR : b ∈ R := by simpa using (List.mem_filter.mp hmem).2
    exact hb (get_resolved_bundles_mem_has_at sha256hex o deprecation_list R h b hbR)

/-- Witness for `get_bundles_from_deprecation_list_spec`: with an oracle under
which every pull spec resolves to `<name>@sha256:aaa`, the unresolved tag
reference `reg/bundle:1` resolves into the deprecation set yet is not kept. -/
theorem get_bundles_from_deprecation_list_spec_witness :
    get_resolved_bundles shaFn oracleA ["reg/dep:1"] = .ok ["reg/dep@sha256:aaa"] ∧
      get_bundles_from_deprecation_list shaFn oracleA ["reg/bundle:1"] ["reg/dep:1"] =
        .ok [] ∧
      "reg/bundle:1" ∉
        (["reg/bundle:1"].filter (fun b => decide (b ∈ ["reg/dep@sha256:aaa"]))) :=
  ⟨rfl,
    ((get_bundles_from_deprecation_list_spec shaFn oracleA ["reg/bundle:1"]
      ["reg/dep:1"] ["reg/dep@sha256:aaa"] rfl).1).trans rfl,
    (get_bundles_from_deprecation_list_spec shaFn oracleA ["reg/bundle:1"]
      ["reg/dep:1"] ["reg/dep@sha256:aaa"] rfl).2 "reg/bundle:1" (by decide)⟩

/-- C5: on scope strings drawn from dev/stage/prod, the validation returns
the resolved scope unchanged when no scope is requested, fails exactly when
the requested scope ranks strictly higher than the resolved scope under
dev < stage < prod, and returns the requested scope when it does not fail. -/
theorem validate_distribution_scope_spec (resolved req : String)
    (hres : resolved ∈ scopes) (hreq : req ∈ scopes) :
    _validate_distribution_scope resolved none = .ok resolved ∧
    ((_validate_distribution_scope resolved (some req)).isOk = false ↔
      scopeRank resolved < scopeRank req) ∧
    (¬ scopeRank resolved < scopeRank req →
      _validate_distribution_scope resolved (some req) = .ok req) := by
  simp only [scopes, List.mem_cons, List.not_mem_nil, or_false] at hres hreq
  rcases hres with rfl | rfl | rfl <;> rcases hreq with rfl | rfl | rfl <;> decide

/-- Witness for `validate_distribution_scope_spec`: a `dev` request against a
`prod` base is accepted and returns `dev`. -/
theorem validate_distribution_scope_spec_witness :
    ("prod" ∈ scopes ∧ "dev" ∈ scopes) ∧
      _validate_distribution_scope "prod" (some "dev") = .ok "dev" :=
  ⟨⟨by decide, by decide⟩,
    (validate_distribution_scope_spec "prod" "dev" (by decide) (by decide)).2.2
      (by decide)⟩

theorem pyListIndex_eq_none (l : List String) (x : String) (h : x ∉ l) :
    pyListIndex l x = none := by
  induction l with
  | nil => rfl
  | cons y ys ih =>
    have h1 : y ≠ x := fun hh => h (hh ▸ List.mem_cons_self y ys)
    have h2 : x ∉ ys := fun hh => h (List.mem_cons_of_mem y hh)
    simp [pyListIndex, h1, ih h2]

theorem pyListIndex_exists_of_mem (l : List String) (x : String) (h : x ∈ l) :
    ∃ i, pyListIndex l x = some i := by
  induction l with
  | nil => cases h
  | cons y ys ih =>
    by_cases hy : y = x
    · exact ⟨0, by simp [pyListIndex, hy]⟩
    · have hx : x ∈ ys := by
        rcases List.mem_cons.mp h with h1 | h1
        · exact absurd h1.symm hy
        · exact h1
      obtain ⟨i, hi⟩ := ih hx
      exact ⟨i + 1, by simp [pyListIndex, hy, hi]⟩

/-- C10: `_validate_distribution_scope` is total only on dev/stage/prod: a
non-empty requested scope outside that set, or (given a non-empty in-set
requested scope) a resolved scope outside that set, makes the `scopes.index`
lookup raise `ValueError`, which is not the `IIBError` kind the error-handling
design surfaces. -/
theorem validate_distribution_scope_nontotal (resolved req : String)
    (hreq : req ≠ "") :
    (req ∉ scopes →
      _validate_distribution_scope resolved (some req) = .error .valueError) ∧
    (req ∈ scopes → resolved ∉ scopes →
      _validate_distribution_scope resolved (some req) = .error .valueError) ∧
    ∀ msg, PyErr.valueError ≠ PyErr.iib msg := by
  refine ⟨?_, ?_, by intro msg h; exact PyErr.noConfusion h⟩
  · intro hout
    simp only [_validate_distribution_scope]
    rw [if_neg hreq, pyListIndex_eq_none scopes req hout]
  · intro hin hout
    obtain ⟨i, hi⟩ := pyListIndex_exists_of_mem scopes req hin
    simp only [_validate_distribution_scope]
    rw [if_neg hreq, hi, pyListIndex_eq_none scopes resolved hout]

/-- Witness for `validate_distribution_scope_nontotal`: requesting the
out-of-set scope `production` raises `ValueError`. -/
theorem validate_distribution_scope_nontotal_witness :
    (("production" : String) ≠ "" ∧ "production" ∉ scopes) ∧
      _validate_distribution_scope "prod" (some "production") = .error .valueError :=
  ⟨⟨by decide, by decide⟩,
    (validate_distribution_scope_nontotal "prod" "production" (by decide)).1
      (by decide)⟩

/-- C6: the binary-image architecture check succeeds exactly when the
requested arches are a subset of the binary image's arches; it fails exactly
when the difference is non-empty, and the failure message lists exactly the
elements of that difference, in sorted order. -/
theorem binary_image_arch_check_spec (arches binary_image_arches : List String) :
    (binary_image_arch_check arches binary_image_arches = .ok () ↔
      ∀ a ∈ arches, a ∈ binary_image_arches) ∧
    ((∃ m, binary_image_arch_check arches binary_image_arches = .error m) ↔
      ∃ a ∈ arches, a ∉ binary_image_arches) ∧
    (∀ m, binary_image_arch_check arches binary_image_arches = .error (.iib m) →
      ∃ l, m = archMissingMsg l ∧ l.Sorted (fun a b => a ≤ b) ∧
        (∀ a, a ∈ l ↔ a ∈ arches ∧ a ∉ binary_image_arches) ∧
        (arches.Nodup → l.Nodup)) := by
  by_cases hc : ∀ a ∈ arches, a ∈ binary_image_arches
  · have hok : binary_image_arch_check arches binary_image_arches = .ok () := by
      simp only [binary_image_arch_check]
      rw [if_neg (by simpa using hc)]
    refine ⟨iff_of_true hok hc, ?_, ?_⟩
    · constructor
      · rintro ⟨m, hm⟩
        rw [hok] at hm
        exact Except.noConfusion hm
      · rintro ⟨a, ha, hna⟩
        exact absurd (hc a ha) hna
    · intro m hm
      rw [hok] at hm
      exact Except.noConfusion hm
  · have herr : binary_image_arch_check arches binary_image_arches =
        .error (.iib (archMissingMsg (pySortedStr
          (arches.filter (fun a => decide (a ∉ binary_image_arches)))))) := by
      simp only [binary_image_arch_check]
      rw [if_pos (by simpa using hc)]
    refine ⟨iff_of_false (by rw [herr]; exact fun h => Except.noConfusion h) hc,
      iff_of_true ⟨_, herr⟩ (by push_neg at hc; exact hc), ?_⟩
    intro m hm
    rw [herr] at hm
    injection hm with hm1
    injection hm1 with hm2
    refine ⟨pySortedStr (arches.filter (fun a => decide (a ∉ binary_image_arches))),
      hm2.symm, ?_, ?_, ?_⟩
    · exact List.sorted_insertionSort _ _
    · intro a
      simp only [pySortedStr]
      rw [List.Perm.mem_iff (List.perm_insertionSort _ _)]
      simp [List.mem_filter]
    · intro hnd
      simp only [pySortedStr]
      exact (List.Perm.nodup_iff (List.perm_insertionSort _ _)).mpr (hnd.filter _)

/-- Witness for `binary_image_arch_check_spec`: requested `amd64, s390x`
against an `amd64`-only binary image fails naming exactly `s390x`. -/
theorem binary_image_arch_check_spec_witness :
    binary_image_arch_check ["amd64", "s390x"] ["amd64"] =
      .error (.iib "The binary image is not available for the following arches: s390x") ∧
    ∃ l, "The binary image is not available for the following arches: s390x" =
        archMissingMsg l ∧ l.Sorted (fun a b => a ≤ b) ∧
        (∀ a, a ∈ l ↔ a ∈ ["amd64", "s390x"] ∧ a ∉ (["amd64"] : List String)) ∧
        ((["amd64", "s390x"] : List String).Nodup → l.Nodup) :=
  ⟨rfl, (binary_image_arch_check_spec ["amd64", "s390x"] ["amd64"]).2.2 _ rfl⟩

/-- C7: with `from_index` absent, `get_index_image_info` returns the default
info — no resolved pull spec, the default ocp version `v4.5`, an empty arch
set, distribution scope `prod` — and performs no inspection and no credential
scoping (the effect trace is empty and the result is the same for every
oracle and token). -/
theorem get_index_image_info_no_from_index (sha256hex : String → String)
    (o : SkopeoOracle) (overwrite_from_index_token : Option String) :
    get_index_image_info sha256hex o overwrite_from_index_token none "v4.5" =
      .ok (⟨none, "v4.5", [], "prod"⟩, []) := rfl

/-- C1 counterexample: a credential scope with a non-empty auths mapping does
not restore the pre-call content of the credential file.  Concretely, when the
config path holds a plain file with an auth entry and the template exists with
empty content, the content read after the scope exits is the template's
content, not the pre-call content. -/
theorem set_registry_auths_not_restored :
    (⟨[("quay.io", "dGVzdA==")]⟩ : DockerConfigJson).auths ≠ [] ∧
    readDockerConfig (set_registry_auths_exit (some ⟨[("quay.io", "dGVzdA==")]⟩)
        ⟨some (DockerEntry.file ⟨[("registry.example.com", "b2xk")]⟩), some ⟨[]⟩⟩) ≠
      readDockerConfig
        ⟨some (DockerEntry.file ⟨[("registry.example.com", "b2xk")]⟩), some ⟨[]⟩⟩ :=
  ⟨by decide, by decide⟩

/-- C1 amended: after a `set_registry_auths` scope with a non-empty auths
mapping exits (on any exit path), the credential path is reset to the
canonical template state — a symlink to the config template when the template
exists, removed otherwise — so the content read afterwards is the template's
content (or absence), and it equals the pre-call content exactly when the
pre-call state already read as the template content; a falsy auths mapping
leaves the state untouched, and a `set_registry_token` scope with non-empty
token and image is the auths scope on the derived singleton mapping. -/
theorem set_registry_auths_exit_canonical (j : DockerConfigJson) (fs : FS) :
    (set_registry_auths_exit (some j) fs).dockerConfig =
      (if fs.template.isSome then some DockerEntry.symlinkToTemplate else none) ∧
    (set_registry_auths_exit (some j) fs).template = fs.template ∧
    readDockerConfig (set_registry_auths_exit (some j) fs) = fs.template ∧
    set_registry_auths_exit none fs = fs ∧
    (∀ registryOf b64encode t img, t ≠ "" → img ≠ "" →
      set_registry_token_exit registryOf b64encode (some t) (some img) fs =
        set_registry_auths_exit (some ⟨[(registryOf img, b64encode t)]⟩) fs) ∧
    (readDockerConfig fs = fs.template →
      readDockerConfig (set_registry_auths_exit (some j) fs) = readDockerConfig fs) := by
  have hread : readDockerConfig (set_registry_auths_exit (some j) fs) = fs.template := by
    cases htm : fs.template <;>
      simp [set_registry_auths_exit, set_registry_auths_enter, reset_docker_config,
        readDockerConfig, htm]
  refine ⟨?_, ?_, hread, rfl, ?_, ?_⟩
  · cases htm : fs.template <;>
      simp [set_registry_auths_exit, set_registry_auths_enter, reset_docker_config, htm]
  · cases htm : fs.template <;>
      simp [set_registry_auths_exit, set_registry_auths_enter, reset_docker_config, htm]
  · intro registryOf b64encode t img ht himg
    simp [set_registry_token_exit, ht, himg]
  · intro hpre
    rw [hread, hpre]

/-- Witness for `set_registry_auths_exit_canonical`: from the canonical
pre-state (config path is the template symlink), the content is preserved
across the scope. -/
theorem set_registry_auths_exit_canonical_witness :
    readDockerConfig ⟨some DockerEntry.symlinkToTemplate, some ⟨[("quay.io", "eA==")]⟩⟩ =
      (⟨some DockerEntry.symlinkToTemplate, some ⟨[("quay.io", "eA==")]⟩⟩ : FS).template ∧
    readDockerConfig (set_registry_auths_exit (some ⟨[("reg.io", "eQ==")]⟩)
        ⟨some DockerEntry.symlinkToTemplate, some ⟨[("quay.io", "eA==")]⟩⟩) =
      readDockerConfig ⟨some DockerEntry.symlinkToTemplate, some ⟨[("quay.io", "eA==")]⟩⟩ :=
  ⟨by decide,
    (set_registry_auths_exit_canonical ⟨[("reg.io", "eQ==")]⟩
      ⟨some DockerEntry.symlinkToTemplate, some ⟨[("quay.io", "eA==")]⟩⟩).2.2.2.2.2
      (by decide)⟩

/-- C9: `RequestConfig.__eq__` evaluated at two configs of the same variant
type that differ in a field value — the code returns `True` (equal) even
though the configs differ structurally, because both list comprehensions in
`__eq__` read `getattr(self, x)`. -/
theorem requestConfigEq_ignores_field_values :
    requestConfigEq ⟨RequestVariant.addRm, [PyValue.strList []]⟩
        ⟨RequestVariant.addRm, [PyValue.strList ["registry/bundle:1"]]⟩ = true ∧
    (⟨RequestVariant.addRm, [PyValue.strList []]⟩ : PyRequestConfig) ≠
      ⟨RequestVariant.addRm, [PyValue.strList ["registry/bundle:1"]]⟩ := by
  exact ⟨by decide, by decide⟩

theorem retryLoop_step_ok {α : Type} (f : Nat → Outcome α) (remaining k : Nat)
    (v : α) (h : f k = Outcome.ok v) :
    retryLoop f remaining k = (Except.ok v, k + 1) := by
  rw [retryLoop, h]

theorem retryLoop_step_nonmatching {α : Type} (f : Nat → Outcome α)
    (remaining k t : Nat) (h : f k = Outcome.exc false t) :
    retryLoop f remaining k = (Except.error (false, t), k + 1) := by
  rw [retryLoop, h]

theorem retryLoop_step_exhausted {α : Type} (f : Nat → Outcome α) (k t : Nat)
    (h : f k = Outcome.exc true t) :
    ∀ remaining, remaining ≤ 1 → retryLoop f remaining k = (Except.error (true, t), k + 1) := by
  intro remaining hr
  match remaining, hr with
  | 0, _ => rw [retryLoop, h]; rfl
  | 1, _ => rw [retryLoop, h]; rfl

theorem retryLoop_step_retry {α : Type} (f : Nat → Outcome α) (k t m : Nat)
    (h : f k = Outcome.exc true t) :
    retryLoop f (m + 2) k = retryLoop f (m + 1) (k + 1) := by
  rw [retryLoop, h]
  rfl

theorem retryLoop_calls_le {α : Type} (f : Nat → Outcome α) :
    ∀ remaining, 1 ≤ remaining → ∀ k, (retryLoop f remaining k).2 ≤ k + remaining := by
  intro remaining
  induction remaining with
  | zero => omega
  | succ r ih =>
    intro _ k
    cases hf : f k with
    | ok v =>
      rw [retryLoop_step_ok f (r + 1) k v hf]
      exact (show k + 1 ≤ k + (r + 1) by omega)
    | exc b t =>
      cases b with
      | false =>
        rw [retryLoop_step_nonmatching f (r + 1) k t hf]
        exact (show k + 1 ≤ k + (r + 1) by omega)
      | true =>
        cases r with
        | zero =>
          rw [retryLoop_step_exhausted f k t hf 1 (by omega)]
        | succ m =>
          rw [retryLoop_step_retry f k t m hf]
          have := ih (by omega) (k + 1)
          omega

theorem retryLoop_skip {α : Type} (f : Nat → Outcome α) :
    ∀ (i remaining k : Nat), i < remaining →
      (∀ j, j < i → ∃ u, f (k + j) = Outcome.exc true u) →
      retryLoop f remaining k = retryLoop f (remaining - i) (k + i) := by
  intro i
  induction i with
  | zero =>
    intro remaining k _ _
    rw [Nat.sub_zero, Nat.add_zero]
  | succ n ih =>
    intro remaining k hlt hfail
    obtain ⟨u, hu⟩ := hfail 0 (by omega)
    rw [Nat.add_zero] at hu
    obtain ⟨m, rfl⟩ : ∃ m, remaining = m + 2 := ⟨remaining - 2, by omega⟩
    rw [retryLoop_step_retry f k u m hu]
    have hrec := ih (m + 1) (k + 1) (by omega) (fun j hj => by
      obtain ⟨u', hu'⟩ := hfail (j + 1) (by omega)
      refine ⟨u', ?_⟩
      have heq : k + 1 + j = k + (j + 1) := by omega
      rw [heq]
      exact hu')
    rw [hrec]
    have h1 : m + 1 - n = m + 2 - (n + 1) := by omega
    have h2 : k + 1 + n = k + (n + 1) := by omega
    rw [h1, h2]

/-- C8: for the retry wrapper configured with `attempts ≥ 1` total attempts:
an invocation raising a non-matching exception propagates it at once (after
that invocation, with no further retries); the wrapped operation is invoked at
most `attempts` times; when all `attempts` invocations raise matching
exceptions the final one is re-raised unchanged; and a success at any attempt
returns that attempt's result. -/
theorem retry_spec {α : Type} (attempts : Nat) (f : Nat → Outcome α)
    (hN : 1 ≤ attempts) :
    (∀ i t, i < attempts → (∀ j, j < i → ∃ u, f j = Outcome.exc true u) →
        f i = Outcome.exc false t →
        retry attempts f = (Except.error (false, t), i + 1)) ∧
    (retry attempts f).2 ≤ attempts ∧
    (∀ t, (∀ j, j < attempts → ∃ u, f j = Outcome.exc true u) →
        f (attempts - 1) = Outcome.exc true t →
        retry attempts f = (Except.error (true, t), attempts)) ∧
    (∀ i v, i < attempts → (∀ j, j < i → ∃ u, f j = Outcome.exc true u) →
        f i = Outcome.ok v →
        retry attempts f = (Except.ok v, i + 1)) := by
  refine ⟨?_, ?_, ?_, ?_⟩
  · intro i t hi hprev hft
    have hskip := retryLoop_skip f i attempts 0 hi (fun j hj => by
      simpa using hprev j hj)
    rw [retry, hskip, Nat.zero_add]
    rw [retryLoop_step_nonmatching f (attempts - i) i t hft]
  · have hcalls := retryLoop_calls_le f attempts hN 0
    rw [retry]
    omega
  · intro t hall hft
    have hskip := retryLoop_skip f (attempts - 1) attempts 0 (by omega)
      (fun j hj => by simpa using hall j (by omega))
    rw [retry, hskip, Nat.zero_add]
    have h1 : attempts - (attempts - 1) = 1 := by omega
    rw [h1, retryLoop_step_exhausted f (attempts - 1) t hft 1 (by omega)]
    have h2 : attempts - 1 + 1 = attempts := by omega
    rw [h2]
  · intro i v hi hprev hfv
    have hskip := retryLoop_skip f i attempts 0 hi (fun j hj => by
      simpa using hprev j hj)
    rw [retry, hskip, Nat.zero_add]
    rw [retryLoop_step_ok f (attempts - i) i v hfv]

/-- Witness for `retry_spec`: two attempts, the first invocation raises a
matching exception, the second succeeds with 42, so the wrapper returns 42
after exactly two invocations. -/
theorem retry_spec_witness :
    (1 ≤ 2 ∧ retryWitnessF 1 = Outcome.ok 42) ∧
      retry 2 retryWitnessF = (Except.ok 42, 2) :=
  ⟨⟨by omega, rfl⟩,
    (retry_spec 2 retryWitnessF (by omega)).2.2.2 1 42 (by omega)
      (fun j hj => by
        have hj0 : j = 0 := by omega
        subst hj0
        exact ⟨7, rfl⟩) rfl⟩
